import Mathlib

/-!
Verification development for the gemini-parser document pipeline.

The definitions below are shallow embeddings of the Python source:
  - DocumentProcessor._split_pdf, _process_pdf_chunk, _process_large_pdf,
    process_file, process_from_url, process_multiple_files
    (src/gemini_parser/document_processor.py)
  - CachingManager.update_cache_ttl, delete_cache
    (src/gemini_parser/caching.py)
External effects (the remote Gemini call, the filesystem, time.sleep) are made
explicit parameters or event traces; integer and string manipulation follows the
CPython semantics of the constructs actually used by the source.
-/

namespace GeminiParser

/-- Element count of the CPython builtin range(start, stop, step) for a nonzero
step, following the reference semantics: for a positive step the count is
max(0, ceil((stop - start) / step)), symmetrically for a negative step. -/
def pyRangeCount (start stop step : Int) : Nat :=
  if 0 < step then
    if start < stop then ((stop - start + step - 1) / step).toNat else 0
  else
    if stop < start then ((start - stop + (-step) - 1) / (-step)).toNat else 0

/-- CPython builtin range(start, stop, step) as a list, or the ValueError that
range itself raises when step is zero. -/
def pyRange (start stop step : Int) : Except String (List Int) :=
  if step = 0 then Except.error "ValueError: range() arg 3 must not be zero"
  else Except.ok ((List.range (pyRangeCount start stop step)).map (fun (i : Nat) => start + step * (i : Int)))

/-- A chunk produced by DocumentProcessor._split_pdf, identified by the half-open
page range [start, stop) that the source writes into the chunk file: the loop
body adds pages i for i in range(start, min(start + pages_per_chunk, total_pages)). -/
structure Chunk where
  start : Int
  stop : Int
deriving DecidableEq, Repr

/-- Embedding of DocumentProcessor._split_pdf restricted to the page ranges of
the chunk files it produces, in production order. The source iterates
for start in range(0, total_pages, pages_per_chunk) and each iteration appends
one chunk covering [start, min(start + pages_per_chunk, total_pages)).
A zero pages_per_chunk surfaces as the ValueError raised by range. -/
def splitPdf (totalPages : Nat) (pagesPerChunk : Int) : Except String (List Chunk) :=
  match pyRange 0 (totalPages : Int) pagesPerChunk with
  | Except.error e => Except.error e
  | Except.ok starts =>
      Except.ok (starts.map (fun s => Chunk.mk s (min (s + pagesPerChunk) (totalPages : Int))))

theorem pyRangeCount_pos_cast (P C : Nat) (hC : 0 < C) :
    pyRangeCount 0 (P : Int) (C : Int) = (P + C - 1) / C := by
  unfold pyRangeCount
  have hCpos : (0 : Int) < (C : Int) := by exact_mod_cast hC
  rw [if_pos hCpos]
  by_cases hP : 0 < P
  · have hPpos : (0 : Int) < (P : Int) := by exact_mod_cast hP
    rw [if_pos hPpos]
    have hnum : ((P : Int) - 0 + (C : Int) - 1) = ((P + C - 1 : Nat) : Int) := by omega
    rw [hnum, ← Int.natCast_div, Int.toNat_natCast]
  · have hP0 : P = 0 := by omega
    subst hP0
    simp only [Nat.cast_zero, lt_self_iff_false, if_false]
    have : (0 + C - 1) / C = 0 := Nat.div_eq_of_lt (by omega)
    omega

theorem splitPdf_pos_eq (P C : Nat) (hC : 0 < C) :
    splitPdf P (C : Int) =
      Except.ok ((List.range ((P + C - 1) / C)).map
        (fun i => Chunk.mk ((C * i : Nat) : Int) ((min (C * i + C) P : Nat) : Int))) := by
  have hCne : ((C : Int)) ≠ 0 := by exact_mod_cast hC.ne.symm
  unfold splitPdf pyRange
  rw [if_neg hCne, pyRangeCount_pos_cast P C hC]
  dsimp only
  rw [List.map_map]
  refine congrArg Except.ok (List.map_congr_left ?_)
  intro i _
  simp only [Function.comp_apply]
  congr 1
  · push_cast
    ring
  · rw [Nat.cast_min]
    congr 1
    push_cast
    ring

/-- Outcome of one remote generate_content call for one chunk: the response
text, or the message of the exception the attempt raised. -/
abbrev AttemptOutcome := Except String String

/-- Retry loop of DocumentProcessor._process_pdf_chunk, starting at a given
value of the 1-based loop counter of for attempt in range(1, max_retries + 1),
with the number of loop iterations still available as fuel. The result records
the returned text, the number of attempts actually made, and the number of
time.sleep(retry_delay) calls executed. A successful attempt returns its text
at once; a failed attempt logs a warning, sleeps, and continues; when the loop
ends without a success the function returns the empty string. -/
def processPdfChunkFrom (attempts : Nat → AttemptOutcome) (attempt : Nat) :
    Nat → String × Nat × Nat
  | 0 => ("", 0, 0)
  | remaining + 1 =>
      match attempts attempt with
      | Except.ok t => (t, 1, 0)
      | Except.error _ =>
          let rest := processPdfChunkFrom attempts (attempt + 1) remaining
          (rest.1, rest.2.1 + 1, rest.2.2 + 1)

/-- Embedding of DocumentProcessor._process_pdf_chunk: the loop runs attempts
1, 2, ..., maxRetries, where attempts k is the outcome of the k-th remote call
for this chunk. -/
def processPdfChunk (attempts : Nat → AttemptOutcome) (maxRetries : Nat) :
    String × Nat × Nat :=
  processPdfChunkFrom attempts 1 maxRetries

/-- One as_completed loop of _process_large_pdf: each completed future writes
its text into results[idx], where idx is the submission index recorded for that
future in future_to_idx. -/
def writeResults (outcomes : Nat → String) :
    List Nat → List (Option String) → List (Option String)
  | [], slots => slots
  | i :: rest, slots => writeResults outcomes rest (slots.set i (some (outcomes i)))

/-- CPython filter(None, results) over the result slots: drops the entries that
are falsy, which for this list means None and the empty string. -/
def pyFilterTruthy : List (Option String) → List String
  | [] => []
  | none :: rest => pyFilterTruthy rest
  | some s :: rest => if s = "" then pyFilterTruthy rest else s :: pyFilterTruthy rest

/-- Result aggregation of DocumentProcessor._process_large_pdf: results starts
as [None] * n, every future completion writes its submission index slot, and
the return value joins filter(None, results) with a double newline. The
completionOrder list is the order in which as_completed yields the futures. -/
def processLargePdfMerge (n : Nat) (outcomes : Nat → String)
    (completionOrder : List Nat) : String :=
  String.intercalate "\n\n"
    (pyFilterTruthy (writeResults outcomes completionOrder (List.replicate n none)))

/-- Embedding of DocumentProcessor._process_large_pdf: split into chunks (a
range ValueError propagates uncaught), run the retry loop on every chunk
(chunk i sees the attempt outcomes attemptOf i), write each result into its
submission index slot in completion order, and join the truthy slots. The
worker pool affects only completionOrder, never the slot a result lands in. -/
def processLargePdf (totalPages : Nat) (pagesPerChunk : Int)
    (attemptOf : Nat → Nat → AttemptOutcome) (maxRetries : Nat)
    (completionOrder : List Nat) : Except String String :=
  match splitPdf totalPages pagesPerChunk with
  | Except.error e => Except.error e
  | Except.ok chunks =>
      Except.ok (processLargePdfMerge chunks.length
        (fun i => (processPdfChunk (attemptOf i) maxRetries).1) completionOrder)

/-- Embedding of DocumentProcessor.process_file: a missing path is logged and
returns the empty string immediately; otherwise the per-extension processing
runs, and any exception it raises propagates, since there is no handler. -/
def processFile (fileExists : Bool) (processing : Except String String) :
    Except String String :=
  if fileExists then processing else Except.ok ""

/-- Embedding of httpx Response.raise_for_status: raises HTTPStatusError for a
4xx or 5xx status code and is a no-op otherwise. -/
def raiseForStatus (statusCode : Nat) : Except String Unit :=
  if 400 ≤ statusCode ∧ statusCode < 600 then
    Except.error ("HTTPStatusError: " ++ toString statusCode)
  else Except.ok ()

/-- Embedding of DocumentProcessor.process_from_url: fetch, raise_for_status,
write the body to a fresh temp file (which therefore exists), process it as a
local file, then unlink the temp file. A status error propagates to the caller
before any temp file is created. -/
def processFromUrl (statusCode : Nat) (processing : Except String String) :
    Except String String :=
  match raiseForStatus statusCode with
  | Except.error e => Except.error e
  | Except.ok _ => processFile true processing

/-- Loop of DocumentProcessor.process_multiple_files: walk the paths in order,
call process_file on each, append the result to the accumulator only when it is
truthy (a nonempty string). An exception from process_file would propagate and
abort the loop. -/
def processMultipleFilesLoop (procFile : String → Except String String) :
    List String → List String → Except String (List String)
  | acc, [] => Except.ok acc
  | acc, fp :: rest =>
      match procFile fp with
      | Except.error e => Except.error e
      | Except.ok r =>
          processMultipleFilesLoop procFile (if r = "" then acc else acc ++ [r]) rest

/-- Embedding of DocumentProcessor.process_multiple_files: the collected truthy
results are joined with a double newline. -/
def processMultipleFiles (procFile : String → Except String String)
    (filePaths : List String) : Except String String :=
  match processMultipleFilesLoop procFile [] filePaths with
  | Except.error e => Except.error e
  | Except.ok results => Except.ok (String.intercalate "\n\n" results)

/-- Filesystem events on temporary resources, identified by numeric ids. -/
inductive FSEvent
  | createDir (id : Nat)
  | createFile (id : Nat)
  | unlinkFile (id : Nat)
  | removeDir (id : Nat)
deriving DecidableEq, Repr

/-- Effect of one filesystem event on the list of live temp directories. -/
def dirStep (acc : List Nat) (e : FSEvent) : List Nat :=
  match e with
  | FSEvent.createDir i => acc ++ [i]
  | FSEvent.removeDir i => acc.erase i
  | _ => acc

/-- Effect of one filesystem event on the list of live temp files. -/
def fileStep (acc : List Nat) (e : FSEvent) : List Nat :=
  match e with
  | FSEvent.createFile i => acc ++ [i]
  | FSEvent.unlinkFile i => acc.erase i
  | _ => acc

/-- Temporary directories still present after a list of filesystem events. -/
def liveDirs (events : List FSEvent) : List Nat :=
  List.foldl dirStep [] events

/-- Temporary files still present after a list of filesystem events. -/
def liveFiles (events : List FSEvent) : List Nat :=
  List.foldl fileStep [] events

/-- Temp-resource trace of _split_pdf: mkdtemp creates the chunk directory
(dir id 0) before the loop runs; each loop iteration then creates one chunk
file (file id = chunk index). When range raises because pages_per_chunk is
zero, the directory has already been created. -/
def splitPdfTrace (totalPages : Nat) (pagesPerChunk : Int) : List FSEvent :=
  FSEvent.createDir 0 ::
    (match splitPdf totalPages pagesPerChunk with
     | Except.error _ => []
     | Except.ok chunks => (List.range chunks.length).map FSEvent.createFile)

/-- Temp-resource trace of a _process_large_pdf call: the _split_pdf trace,
then (unless _split_pdf raised) the cleanup loop that unlinks every chunk file.
No event removes the chunk directory: the source never calls rmdir on it. -/
def processLargePdfTrace (totalPages : Nat) (pagesPerChunk : Int) : List FSEvent :=
  splitPdfTrace totalPages pagesPerChunk ++
    (match splitPdf totalPages pagesPerChunk with
     | Except.error _ => []
     | Except.ok chunks => (List.range chunks.length).map FSEvent.unlinkFile)

/-- Temp-resource trace of process_from_url after a successful fetch: mkdtemp
(dir id 100) and the downloaded file (file id 100) are created, then
process_file runs; only when it returns normally do the unlink and rmdir lines
execute, as nothing in the source guards them against an exception. -/
def processFromUrlTrace (processRaises : Bool) : List FSEvent :=
  [FSEvent.createDir 100, FSEvent.createFile 100] ++
    (if processRaises then [] else [FSEvent.unlinkFile 100, FSEvent.removeDir 100])

/-- CPython int() applied to a real value: truncation toward zero. The hours
argument of update_cache_ttl is modelled as a rational; the values the spec
exercises (2.0 and 0.5) are exact in binary floating point, so the rational
model agrees with the float computation on them. -/
def pyInt (q : Rat) : Int :=
  if 0 ≤ q then q.floor else q.ceil

/-- Embedding of CachingManager.update_cache_ttl: computes
ttl_seconds = int(hours * 3600) and issues client.caches.update with exactly
that number of seconds; there is no exception handler, so an update failure
propagates. The update parameter is the remote call, as a function from the
issued seconds to the call outcome. -/
def updateCacheTtl (update : Int → Except String Unit) (hours : Rat) :
    Except String Unit :=
  update (pyInt (hours * 3600))

/-- Embedding of CachingManager.delete_cache: the remote delete runs inside a
try block; on success an info line is logged, on any exception an error line is
logged and the exception is swallowed. The value records the optional logged
error; the Except layer shows whether an exception escapes. -/
def deleteCache (remoteDelete : Except String Unit) : Except String (Option String) :=
  match remoteDelete with
  | Except.ok _ => Except.ok none
  | Except.error e => Except.ok (some e)

/-- Embedding of DocumentProcessor.delete_cache: wraps the manager call in its
own try block, logging and swallowing any exception it raises. -/
def processorDeleteCache (remoteDelete : Except String Unit) :
    Except String (Option String) :=
  match deleteCache remoteDelete with
  | Except.ok log => Except.ok log
  | Except.error e => Except.ok (some e)

theorem writeResults_getElem? (f : Nat → String) (order : List Nat) :
    ∀ (slots : List (Option String)) (j : Nat),
      (writeResults f order slots)[j]? =
        if j ∈ order ∧ j < slots.length then some (some (f j)) else slots[j]? := by
  induction order with
  | nil =>
      intro slots j
      simp [writeResults]
  | cons i rest ih =>
      intro slots j
      simp only [writeResults]
      rw [ih, List.length_set, List.getElem?_set]
      by_cases hl : j < slots.length
      · by_cases hjr : j ∈ rest
        · simp [hjr, hl, List.mem_cons]
        · by_cases hij : i = j
          · subst hij
            simp [hjr, hl, List.mem_cons]
          · have hji : ¬ j = i := fun hh => hij hh.symm
            simp [hjr, hl, hij, hji, List.mem_cons]
      · have hnone : slots[j]? = none := List.getElem?_eq_none (by omega)
        by_cases hij : i = j
        · subst hij
          simp [hl, hnone]
        · simp [hl, hij, hnone]

theorem writeResults_complete (f : Nat → String) (n : Nat) (order : List Nat)
    (hmem : ∀ j, j ∈ order ↔ j < n) :
    writeResults f order (List.replicate n none) =
      (List.range n).map (fun i => some (f i)) := by
  apply List.ext_getElem?
  intro j
  rw [writeResults_getElem?, List.length_replicate]
  by_cases hj : j < n
  · simp [hmem, hj, List.getElem?_range hj]
  · have h1 : ((List.range n).map (fun i => some (f i)))[j]? = none :=
      List.getElem?_eq_none (by simpa using by omega)
    have h2 : (List.replicate n (none : Option String))[j]? = none :=
      List.getElem?_eq_none (by simpa using by omega)
    simp [hmem, hj, h1, h2]

theorem pyFilterTruthy_map_some (l : List String) :
    pyFilterTruthy (l.map some) = l.filter (fun s => decide (s ≠ "")) := by
  induction l with
  | nil => rfl
  | cons a rest ih =>
      by_cases ha : a = ""
      · simp [pyFilterTruthy, ha, ih, List.filter_cons]
      · simp [pyFilterTruthy, ha, ih, List.filter_cons]

theorem processLargePdfMerge_eq (n : Nat) (outcomes : Nat → String) (order : List Nat)
    (hperm : order.Perm (List.range n)) :
    processLargePdfMerge n outcomes order =
      String.intercalate "\n\n"
        (((List.range n).map outcomes).filter (fun s => decide (s ≠ ""))) := by
  unfold processLargePdfMerge
  have hmem : ∀ j, j ∈ order ↔ j < n := by
    intro j
    rw [hperm.mem_iff, List.mem_range]
  rw [writeResults_complete outcomes n order hmem]
  have hmap : (List.range n).map (fun i => some (outcomes i)) =
      ((List.range n).map outcomes).map some := by
    rw [List.map_map]
    rfl
  rw [hmap, pyFilterTruthy_map_some]

/-- C1: for every list of chunk results the merged document text places each
chunk text in ascending sequence-index order regardless of completion order:
each completed job writes into the slot of its original index, and the final
text is the double-newline join of the non-empty slots in index order. The
right-hand side does not depend on completionOrder, so any two completion
orders (in particular chunk 1 before chunk 0) merge identically, with chunk 0
preceding chunk 1. -/
theorem merged_text_preserves_index_order (n : Nat) (outcomes : Nat → String)
    (completionOrder : List Nat) (hperm : completionOrder.Perm (List.range n)) :
    processLargePdfMerge n outcomes completionOrder =
      String.intercalate "\n\n"
        (((List.range n).map outcomes).filter (fun s => decide (s ≠ ""))) :=
  processLargePdfMerge_eq n outcomes completionOrder hperm

/-- Witness for C1 at n = 2 with chunk 1 completing first: the merged text
still puts the text of chunk 0 first. -/
theorem merged_text_preserves_index_order_witness :
    ([1, 0] : List Nat).Perm (List.range 2) ∧
      processLargePdfMerge 2 (fun i => if i = 0 then "pageA" else "pageB") [1, 0] =
        "pageA\n\npageB" := by
  refine ⟨by decide, ?_⟩
  rw [merged_text_preserves_index_order 2 (fun i => if i = 0 then "pageA" else "pageB")
    [1, 0] (by decide)]
  rfl

/-- C2: for every page count P and chunk size C > 0, _split_pdf succeeds and
produces exactly ceil(P / C) chunks (the count is (P + C - 1) / C, which the
third conjunct identifies as the least m with P <= m * C), chunk i covers
[i * C, min((i + 1) * C, P)), consecutive chunks are contiguous, distinct
chunks do not overlap, the union of the chunks is exactly the page interval
[0, P), and P = 0 yields the empty chunk list. -/
theorem splitPdf_coverage (P C : Nat) (hC : 0 < C) :
    ∃ chunks : List Chunk,
      splitPdf P (C : Int) = Except.ok chunks ∧
      chunks.length = (P + C - 1) / C ∧
      (∀ m : Nat, chunks.length ≤ m ↔ P ≤ m * C) ∧
      (∀ i, ∀ h : i < chunks.length,
        chunks.get ⟨i, h⟩ =
          Chunk.mk ((C * i : Nat) : Int) ((min (C * i + C) P : Nat) : Int)) ∧
      (∀ i, ∀ h : i + 1 < chunks.length,
        (chunks.get ⟨i, by omega⟩).stop = (chunks.get ⟨i + 1, h⟩).start) ∧
      (∀ i j, ∀ hi : i < chunks.length, ∀ hj : j < chunks.length, i < j →
        (chunks.get ⟨i, hi⟩).stop ≤ (chunks.get ⟨j, hj⟩).start) ∧
      (∀ p : Nat, p < P ↔ ∃ c ∈ chunks, c.start ≤ (p : Int) ∧ (p : Int) < c.stop) ∧
      (P = 0 → chunks = []) := by
  have hgal : ∀ m : Nat, (P + C - 1) / C ≤ m ↔ P ≤ m * C := by
    intro m
    constructor
    · intro h
      have h2 : P + C - 1 < (m + 1) * C := (Nat.div_lt_iff_lt_mul hC).mp (by omega)
      rw [Nat.add_mul, Nat.one_mul] at h2
      generalize m * C = x at h2 ⊢
      omega
    · intro h
      have h2 : P + C - 1 < m * C + C := by
        generalize m * C = x at h ⊢
        omega
      have h3 : P + C - 1 < (m + 1) * C := by
        rw [Nat.add_mul, Nat.one_mul]
        exact h2
      have h4 : (P + C - 1) / C < m + 1 := (Nat.div_lt_iff_lt_mul hC).mpr h3
      omega
  refine ⟨(List.range ((P + C - 1) / C)).map
      (fun i => Chunk.mk ((C * i : Nat) : Int) ((min (C * i + C) P : Nat) : Int)),
    splitPdf_pos_eq P C hC, by simp, ?_, ?_, ?_, ?_, ?_, ?_⟩
  · intro m
    simpa using hgal m
  · intro i h
    simp [List.get_eq_getElem]
  · intro i h
    have hlen : i + 1 < (P + C - 1) / C := by simpa using h
    have h5 : ¬ P ≤ (i + 1) * C := by
      intro hc
      have := (hgal (i + 1)).mpr hc
      omega
    have h6 : C * i + C ≤ P := by
      have hcomm : (i + 1) * C = C * i + C := by ring
      rw [hcomm] at h5
      omega
    simp only [List.get_eq_getElem, List.getElem_map, List.getElem_range]
    show ((min (C * i + C) P : Nat) : Int) = ((C * (i + 1) : Nat) : Int)
    rw [min_eq_left h6]
    push_cast
    ring
  · intro i j hi hj hij
    simp only [List.get_eq_getElem, List.getElem_map, List.getElem_range]
    show ((min (C * i + C) P : Nat) : Int) ≤ ((C * j : Nat) : Int)
    have h1 : min (C * i + C) P ≤ C * i + C := min_le_left _ _
    have h3 : C * (i + 1) ≤ C * j := Nat.mul_le_mul_left C (by omega)
    rw [Nat.mul_succ] at h3
    exact_mod_cast le_trans h1 h3
  · intro p
    constructor
    · intro hp
      have hidx : p / C < (P + C - 1) / C := by
        rcases Nat.lt_or_ge (p / C) ((P + C - 1) / C) with hlt | hge
        · exact hlt
        · exfalso
          have h1 : P ≤ p / C * C := (hgal (p / C)).mp hge
          have h2 : p / C * C ≤ p := Nat.div_mul_le_self p C
          omega
      refine ⟨Chunk.mk ((C * (p / C) : Nat) : Int) ((min (C * (p / C) + C) P : Nat) : Int),
        ?_, ?_, ?_⟩
      · exact List.mem_map_of_mem _ (List.mem_range.mpr hidx)
      · show ((C * (p / C) : Nat) : Int) ≤ (p : Int)
        have hmod := Nat.div_add_mod p C
        exact_mod_cast (by omega : C * (p / C) ≤ p)
      · show (p : Int) < ((min (C * (p / C) + C) P : Nat) : Int)
        have hmod := Nat.div_add_mod p C
        have hmlt : p % C < C := Nat.mod_lt p hC
        have h1 : p < C * (p / C) + C := by omega
        exact_mod_cast lt_min h1 hp
    · rintro ⟨c, hc, h1, h2⟩
      obtain ⟨i, hi, rfl⟩ := List.mem_map.mp hc
      dsimp only at h1 h2
      have h3 : p < min (C * i + C) P := by exact_mod_cast h2
      have h4 := min_le_right (C * i + C) P
      omega
  · intro hP
    subst hP
    have h0 : (0 + C - 1) / C = 0 := Nat.div_eq_of_lt (by omega)
    rw [h0]
    rfl

/-- Witness for C2 at the concrete scenario of the spec: a 12-page document
with chunk size 5 splits into ceil(12 / 5) = 3 chunks. -/
theorem splitPdf_coverage_witness :
    0 < 5 ∧ ∃ chunks : List Chunk,
      splitPdf 12 ((5 : Nat) : Int) = Except.ok chunks ∧ chunks.length = (12 + 5 - 1) / 5 := by
  refine ⟨by decide, ?_⟩
  obtain ⟨chunks, h1, h2, _⟩ := splitPdf_coverage 12 5 (by decide)
  exact ⟨chunks, h1, h2⟩

/-- C4 counterexample: with a negative chunk size the planner does not report
any error; range(0, 12, -1) is empty, so _split_pdf silently returns zero
chunks and the 12-page document would be processed as if it were empty. -/
theorem splitPdf_negative_silently_empty :
    splitPdf 12 (-1) = Except.ok [] ∧ ¬ ∃ e, splitPdf 12 (-1) = Except.error e := by
  refine ⟨rfl, ?_⟩
  rintro ⟨e, he⟩
  rw [show splitPdf 12 (-1) = Except.ok ([] : List Chunk) from rfl] at he
  exact Except.noConfusion he

/-- C4 (amended): a chunk size of exactly zero makes chunk planning raise the
ValueError that the Python range builtin itself raises, producing no chunks;
but a negative chunk size is not reported at all: the planner silently returns
the empty chunk list, so processing proceeds as if the document were empty. -/
theorem splitPdf_nonpositive_behavior (P : Nat) (C : Int) (hC : C ≤ 0) :
    (C = 0 → splitPdf P C = Except.error "ValueError: range() arg 3 must not be zero") ∧
    (C < 0 → splitPdf P C = Except.ok []) := by
  constructor
  · intro h0
    subst h0
    rfl
  · intro hneg
    unfold splitPdf pyRange pyRangeCount
    rw [if_neg (by omega)]
    rw [if_neg (by omega), if_neg (by omega : ¬ ((P : Int) < 0))]
    rfl

/-- Witness for C4 amended at chunk sizes 0 and -1. -/
theorem splitPdf_nonpositive_behavior_witness :
    splitPdf 7 0 = Except.error "ValueError: range() arg 3 must not be zero" ∧
      splitPdf 12 (-1) = Except.ok [] :=
  ⟨(splitPdf_nonpositive_behavior 7 0 (by decide)).1 rfl,
   (splitPdf_nonpositive_behavior 12 (-1) (by decide)).2 (by decide)⟩

instance instDecEqExcept {ε α : Type} [DecidableEq ε] [DecidableEq α] :
    DecidableEq (Except ε α)
  | Except.ok x, Except.ok y =>
      if h : x = y then isTrue (by rw [h]) else isFalse (fun hc => h (Except.ok.inj hc))
  | Except.ok _, Except.error _ => isFalse (fun hc => Except.noConfusion hc)
  | Except.error _, Except.ok _ => isFalse (fun hc => Except.noConfusion hc)
  | Except.error e, Except.error f =>
      if h : e = f then isTrue (by rw [h]) else isFalse (fun hc => h (Except.error.inj hc))

theorem processPdfChunkFrom_all_fail (attempts : Nat → AttemptOutcome) :
    ∀ (fuel attempt : Nat),
      (∀ k, attempt ≤ k → k < attempt + fuel → ∃ e, attempts k = Except.error e) →
      processPdfChunkFrom attempts attempt fuel = ("", fuel, fuel) := by
  intro fuel
  induction fuel with
  | zero =>
      intro attempt h
      rfl
  | succ m ih =>
      intro attempt h
      obtain ⟨e, he⟩ := h attempt (le_refl _) (by omega)
      have hrec := ih (attempt + 1) (fun k hk1 hk2 => h k (by omega) (by omega))
      simp [processPdfChunkFrom, he, hrec]

theorem processPdfChunkFrom_first_success (attempts : Nat → AttemptOutcome) (t : String) :
    ∀ (fuel attempt k : Nat), attempt ≤ k → k < attempt + fuel →
      attempts k = Except.ok t →
      (∀ j, attempt ≤ j → j < k → ∃ e, attempts j = Except.error e) →
      processPdfChunkFrom attempts attempt fuel = (t, k - attempt + 1, k - attempt) := by
  intro fuel
  induction fuel with
  | zero =>
      intro attempt k h1 h2 hok hfail
      omega
  | succ m ih =>
      intro attempt k h1 h2 hok hfail
      by_cases hk : k = attempt
      · subst hk
        simp [processPdfChunkFrom, hok, Prod.ext_iff]
      · obtain ⟨e, he⟩ := hfail attempt (le_refl _) (by omega)
        have hrec := ih (attempt + 1) k (by omega) (by omega) hok
          (fun j hj1 hj2 => hfail j (by omega) hj2)
        simp [processPdfChunkFrom, he, hrec, Prod.ext_iff]
        omega

theorem processPdfChunk_exhausted (attempts : Nat → AttemptOutcome) (maxRetries : Nat)
    (h : ∀ k, 1 ≤ k → k ≤ maxRetries → ∃ e, attempts k = Except.error e) :
    processPdfChunk attempts maxRetries = ("", maxRetries, maxRetries) :=
  processPdfChunkFrom_all_fail attempts maxRetries 1 (fun k hk1 hk2 => h k hk1 (by omega))

theorem processPdfChunk_success (attempts : Nat → AttemptOutcome) (maxRetries : Nat) (t : String) :
    ∀ k, 1 ≤ k → k ≤ maxRetries →
      attempts k = Except.ok t →
      (∀ j, 1 ≤ j → j < k → ∃ e, attempts j = Except.error e) →
      processPdfChunk attempts maxRetries = (t, k, k - 1) := by
  intro k hk1 hk2 hok hfail
  have h := processPdfChunkFrom_first_success attempts t maxRetries 1 k hk1 (by omega) hok hfail
  rw [processPdfChunk, h]
  simp [Prod.ext_iff]
  omega

/-- C5 counterexample: with maxRetries = 2 and a remote call that always
fails, the executor makes 2 attempts and sleeps 2 times - one fixed delay
after each failed attempt, including the final one - so the delay is not
waited only between consecutive attempts, which would give 2 - 1 = 1 sleep. -/
theorem retry_sleeps_after_final_attempt :
    processPdfChunk (fun _ => Except.error "NetworkError") 2 = ("", 2, 2) ∧
    (processPdfChunk (fun _ => Except.error "NetworkError") 2).2.2 ≠
      (processPdfChunk (fun _ => Except.error "NetworkError") 2).2.1 - 1 := by
  decide

/-- C5 (amended): the retry executor attempts the remote call up to maxRetries
times with a fixed retryDelay sleep after every failed attempt - so between
consecutive attempts, but also once more after the final failed attempt when
every attempt fails (maxRetries sleeps in total on exhaustion); on the first
successful attempt k it returns that text immediately, having made k attempts
and slept only the k - 1 times between them, and the remaining attempts are
abandoned. The triple is (returned text, attempts made, sleeps executed). -/
theorem retry_executor_behavior (attempts : Nat → AttemptOutcome) (maxRetries : Nat) :
    ((∀ k, 1 ≤ k → k ≤ maxRetries → ∃ e, attempts k = Except.error e) →
      processPdfChunk attempts maxRetries = ("", maxRetries, maxRetries)) ∧
    (∀ t k, 1 ≤ k → k ≤ maxRetries → attempts k = Except.ok t →
      (∀ j, 1 ≤ j → j < k → ∃ e, attempts j = Except.error e) →
      processPdfChunk attempts maxRetries = (t, k, k - 1)) :=
  ⟨fun h => processPdfChunk_exhausted attempts maxRetries h,
   fun t k hk1 hk2 hok hfail =>
     processPdfChunk_success attempts maxRetries t k hk1 hk2 hok hfail⟩

/-- Witness for C5 amended: with maxRetries = 3, a first attempt that fails and
a second that succeeds with text "txt", the executor returns "txt" after 2
attempts and a single sleep. -/
theorem retry_executor_behavior_witness :
    (fun k => if k = 2 then Except.ok "txt" else Except.error "boom" : Nat → AttemptOutcome) 2 =
      Except.ok "txt" ∧
    processPdfChunk (fun k => if k = 2 then Except.ok "txt" else Except.error "boom") 3 =
      ("txt", 2, 1) := by
  refine ⟨rfl, ?_⟩
  exact (retry_executor_behavior
      (fun k => if k = 2 then Except.ok "txt" else Except.error "boom") 3).2 "txt" 2
    (by omega) (by omega) rfl
    (fun j hj1 hj2 => ⟨"boom", by
      have hj : j = 1 := by omega
      subst hj
      rfl⟩)

/-- Per-chunk description of the attempt outcomes: chunkResult i is none when
every attempt for chunk i fails, and some t when some attempt returns t with
all earlier attempts failing. -/
def ChunkAttemptsMatch (attemptOf : Nat → Nat → AttemptOutcome) (maxRetries : Nat)
    (chunkResult : Nat → Option String) : Prop :=
  ∀ i,
    (chunkResult i = none →
      ∀ k, 1 ≤ k → k ≤ maxRetries → ∃ e, attemptOf i k = Except.error e) ∧
    (∀ t, chunkResult i = some t →
      ∃ k, 1 ≤ k ∧ k ≤ maxRetries ∧ attemptOf i k = Except.ok t ∧
        ∀ j, 1 ≤ j → j < k → ∃ e, attemptOf i j = Except.error e)

theorem processPdfChunk_text_of_match (attemptOf : Nat → Nat → AttemptOutcome)
    (maxRetries : Nat) (chunkResult : Nat → Option String)
    (hmatch : ChunkAttemptsMatch attemptOf maxRetries chunkResult) (i : Nat) :
    (processPdfChunk (attemptOf i) maxRetries).1 = (chunkResult i).getD "" := by
  cases hres : chunkResult i with
  | none =>
      rw [processPdfChunk_exhausted (attemptOf i) maxRetries ((hmatch i).1 hres)]
      rfl
  | some t =>
      obtain ⟨k, hk1, hk2, hok, hfail⟩ := (hmatch i).2 t hres
      rw [processPdfChunk_success (attemptOf i) maxRetries t k hk1 hk2 hok hfail]
      rfl

/-- C3: when chunks exhaust their retries the pipeline still returns normally
(no exception reaches the caller: the result is Except.ok), each failed chunk
contributes an empty string that the merge skips, the merged result is the
double-newline join of the remaining successful chunk outputs in index order,
and when every chunk fails the merged result is exactly the empty string. -/
theorem pipeline_tolerates_chunk_failure (P C : Nat) (hC : 0 < C)
    (attemptOf : Nat → Nat → AttemptOutcome) (maxRetries : Nat)
    (completionOrder : List Nat) (chunkResult : Nat → Option String)
    (hperm : completionOrder.Perm (List.range ((P + C - 1) / C)))
    (hmatch : ChunkAttemptsMatch attemptOf maxRetries chunkResult) :
    processLargePdf P (C : Int) attemptOf maxRetries completionOrder =
      Except.ok (String.intercalate "\n\n"
        (((List.range ((P + C - 1) / C)).map (fun i => (chunkResult i).getD "")).filter
          (fun s => decide (s ≠ "")))) ∧
    ((∀ i, chunkResult i = none) →
      processLargePdf P (C : Int) attemptOf maxRetries completionOrder = Except.ok "") := by
  have hmain : processLargePdf P (C : Int) attemptOf maxRetries completionOrder =
      Except.ok (String.intercalate "\n\n"
        (((List.range ((P + C - 1) / C)).map (fun i => (chunkResult i).getD "")).filter
          (fun s => decide (s ≠ "")))) := by
    unfold processLargePdf
    rw [splitPdf_pos_eq P C hC]
    dsimp only
    have hlen : ((List.range ((P + C - 1) / C)).map
        (fun i => Chunk.mk ((C * i : Nat) : Int) ((min (C * i + C) P : Nat) : Int))).length =
        (P + C - 1) / C := by
      simp
    rw [hlen, processLargePdfMerge_eq _ _ _ hperm]
    have houtcomes : (List.range ((P + C - 1) / C)).map
        (fun i => (processPdfChunk (attemptOf i) maxRetries).1) =
        (List.range ((P + C - 1) / C)).map (fun i => (chunkResult i).getD "") :=
      List.map_congr_left (fun i _ =>
        processPdfChunk_text_of_match attemptOf maxRetries chunkResult hmatch i)
    rw [houtcomes]
  refine ⟨hmain, ?_⟩
  intro hall
  rw [hmain]
  have hfil : ((List.range ((P + C - 1) / C)).map (fun i => (chunkResult i).getD "")).filter
      (fun s => decide (s ≠ "")) = [] := by
    rw [List.filter_eq_nil_iff]
    intro s hs
    obtain ⟨i, hi, hsi⟩ := List.mem_map.mp hs
    rw [hall i] at hsi
    simp [← hsi]
  rw [hfil]
  rfl

/-- Attempt outcomes for the C3 witness: chunk 1 always fails, chunks 0 and 2
succeed on their first attempt. -/
def wAttemptOf : Nat → Nat → AttemptOutcome := fun i _ =>
  if i = 1 then Except.error "boom" else Except.ok (if i = 0 then "alpha" else "gamma")

/-- Per-chunk results for the C3 witness. -/
def wChunkResult : Nat → Option String := fun i =>
  if i = 1 then none else some (if i = 0 then "alpha" else "gamma")

/-- Witness for C3: a 12-page document split 5 pages per chunk gives 3 chunks;
chunk 1 exhausts its 2 retries while chunks 0 and 2 succeed, the completion
order is 2, 0, 1, and the merged result joins the two successes in index
order with no exception. -/
theorem pipeline_tolerates_chunk_failure_witness :
    ([2, 0, 1] : List Nat).Perm (List.range ((12 + 5 - 1) / 5)) ∧
    processLargePdf 12 ((5 : Nat) : Int) wAttemptOf 2 [2, 0, 1] =
      Except.ok "alpha\n\ngamma" := by
  refine ⟨by decide, ?_⟩
  have hmatch : ChunkAttemptsMatch wAttemptOf 2 wChunkResult := by
    intro i
    constructor
    · intro hn k hk1 hk2
      by_cases hi : i = 1
      · exact ⟨"boom", by simp [wAttemptOf, hi]⟩
      · simp [wChunkResult, hi] at hn
    · intro t ht
      by_cases hi : i = 1
      · rw [hi] at ht
        simp [wChunkResult] at ht
      · refine ⟨1, le_refl 1, by omega, ?_, fun j hj1 hj2 => by omega⟩
        simp [wChunkResult, hi] at ht
        simp [wAttemptOf, hi, ht]
  have h := (pipeline_tolerates_chunk_failure 12 5 (by decide) wAttemptOf 2 [2, 0, 1]
    wChunkResult (by decide) hmatch).1
  exact h.trans (by decide)

/-- C6 counterexample: a failed remote fetch (HTTP 404) makes process_from_url
raise the HTTPStatusError from raise_for_status; it does not resolve to the
empty result string. -/
theorem url_fetch_failure_raises :
    processFromUrl 404 (Except.ok "remote text") =
      Except.error "HTTPStatusError: 404" ∧
    processFromUrl 404 (Except.ok "remote text") ≠ Except.ok "" := by
  decide

/-- C6 (amended): process_file on a path that does not exist returns the empty
string rather than raising; but a failed remote fetch in the URL path raises
the status error to the caller rather than resolving to an empty result. -/
theorem missing_file_and_failed_fetch (processing : Except String String) :
    processFile false processing = Except.ok "" ∧
    (∀ statusCode : Nat, 400 ≤ statusCode → statusCode < 600 →
      processFromUrl statusCode processing =
        Except.error ("HTTPStatusError: " ++ toString statusCode)) := by
  constructor
  · rfl
  · intro sc h1 h2
    simp [processFromUrl, raiseForStatus, h1, h2]

/-- Witness for C6 amended at a missing local file and a 404 fetch. -/
theorem missing_file_and_failed_fetch_witness :
    processFile false (Except.ok "body") = Except.ok "" ∧
    (400 ≤ 404 ∧ 404 < 600) ∧
    processFromUrl 404 (Except.ok "body") = Except.error "HTTPStatusError: 404" := by
  refine ⟨(missing_file_and_failed_fetch (Except.ok "body")).1, by decide, ?_⟩
  have h := (missing_file_and_failed_fetch (Except.ok "body")).2 404 (by decide) (by decide)
  exact h.trans (by decide)

theorem foldl_fileStep_createFiles (l : List Nat) :
    ∀ acc, List.foldl fileStep acc (l.map FSEvent.createFile) = acc ++ l := by
  induction l with
  | nil =>
      intro acc
      simp
  | cons a t ih =>
      intro acc
      simp [fileStep, ih]

theorem foldl_fileStep_unlinkFiles (l : List Nat) :
    ∀ acc, List.foldl fileStep acc (l.map FSEvent.unlinkFile) =
      List.foldl (fun a x => a.erase x) acc l := by
  induction l with
  | nil =>
      intro acc
      rfl
  | cons a t ih =>
      intro acc
      simp [fileStep, ih]

theorem foldl_erase_self (l : List Nat) :
    List.foldl (fun a x => a.erase x) l l = [] := by
  induction l with
  | nil => rfl
  | cons a t ih =>
      simp [List.erase_cons_head, ih]

theorem foldl_dirStep_createFiles (l : List Nat) :
    ∀ acc, List.foldl dirStep acc (l.map FSEvent.createFile) = acc := by
  induction l with
  | nil =>
      intro acc
      rfl
  | cons a t ih =>
      intro acc
      simp [dirStep, ih]

theorem foldl_dirStep_unlinkFiles (l : List Nat) :
    ∀ acc, List.foldl dirStep acc (l.map FSEvent.unlinkFile) = acc := by
  induction l with
  | nil =>
      intro acc
      rfl
  | cons a t ih =>
      intro acc
      simp [dirStep, ih]

/-- C7 counterexample: even a fully successful _process_large_pdf call on a
1-page document with chunk size 1 leaves the temporary chunk directory behind:
the cleanup loop unlinks the chunk files but nothing ever removes the
directory that mkdtemp created, so a temporary directory survives the call. -/
theorem chunk_temp_dir_survives :
    liveDirs (processLargePdfTrace 1 1) = [0] ∧
    liveDirs (processLargePdfTrace 1 1) ≠ [] := by
  decide

/-- C7 (amended): on every _process_large_pdf exit path the chunk files
themselves are gone by return time, but the temporary chunk directory always
survives; in process_from_url the downloaded temp file and its directory are
removed when processing returns normally, yet both survive when processing
raises, because no handler guards the cleanup lines. -/
theorem temp_cleanup_behavior (P : Nat) (C : Int) :
    liveFiles (processLargePdfTrace P C) = [] ∧
    liveDirs (processLargePdfTrace P C) = [0] ∧
    liveFiles (processFromUrlTrace false) = [] ∧
    liveDirs (processFromUrlTrace false) = [] ∧
    liveFiles (processFromUrlTrace true) = [100] ∧
    liveDirs (processFromUrlTrace true) = [100] := by
  refine ⟨?_, ?_, by decide, by decide, by decide, by decide⟩
  · unfold liveFiles processLargePdfTrace splitPdfTrace
    cases hs : splitPdf P C with
    | error e =>
        simp [fileStep]
    | ok chunks =>
        rw [List.foldl_append, List.foldl_cons]
        have h0 : fileStep [] (FSEvent.createDir 0) = [] := rfl
        rw [h0, foldl_fileStep_createFiles, foldl_fileStep_unlinkFiles]
        rw [List.nil_append, foldl_erase_self]
  · unfold liveDirs processLargePdfTrace splitPdfTrace
    cases hs : splitPdf P C with
    | error e =>
        simp [dirStep]
    | ok chunks =>
        rw [List.foldl_append, List.foldl_cons]
        have h0 : dirStep [] (FSEvent.createDir 0) = [0] := rfl
        rw [h0, foldl_dirStep_createFiles, foldl_dirStep_unlinkFiles]

/-- C8: update_cache_ttl issues the update with exactly
ttl_seconds = floor(hours * 3600) for every nonnegative hours (int() truncates
toward zero, which on nonnegative values is the floor); hours = 2 issues 7200
seconds and hours = 1/2 issues 1800 seconds; and a failing update propagates
its error to the caller unchanged. -/
theorem updateCacheTtl_conversion (update : Int → Except String Unit) (hours : Rat)
    (h0 : 0 ≤ hours) :
    updateCacheTtl update hours = update ⌊hours * 3600⌋ ∧
    updateCacheTtl update 2 = update 7200 ∧
    updateCacheTtl update (1 / 2) = update 1800 ∧
    (∀ e, update ⌊hours * 3600⌋ = Except.error e →
      updateCacheTtl update hours = Except.error e) := by
  have hfloor : ∀ q : Rat, q.floor = ⌊q⌋ := fun _ => rfl
  have hmain : updateCacheTtl update hours = update ⌊hours * 3600⌋ := by
    unfold updateCacheTtl pyInt
    rw [if_pos (by positivity), hfloor]
  refine ⟨hmain, ?_, ?_, fun e he => hmain.trans he⟩
  · show update (pyInt (2 * 3600)) = update 7200
    have h1 : pyInt (2 * 3600) = 7200 := by
      unfold pyInt
      rw [if_pos (by norm_num), hfloor]
      norm_num
    rw [h1]
  · show update (pyInt (1 / 2 * 3600)) = update 1800
    have h1 : pyInt (1 / 2 * 3600) = 1800 := by
      unfold pyInt
      rw [if_pos (by norm_num), hfloor]
      norm_num
    rw [h1]

/-- Witness for C8 at hours = 2 with an update call that reports the seconds
it was issued: exactly 7200 is issued, and its failure propagates. -/
theorem updateCacheTtl_conversion_witness :
    (0 : Rat) ≤ 2 ∧
    updateCacheTtl (fun n => Except.error (toString n)) 2 = Except.error "7200" := by
  refine ⟨by norm_num, ?_⟩
  have h := (updateCacheTtl_conversion (fun n => Except.error (toString n)) 2 (by norm_num)).2.1
  exact h.trans (by decide)

/-- C9: delete_cache never raises to the caller whatever the remote delete
does - for a nonexistent or already-deleted handle included - at both the
CachingManager layer and the DocumentProcessor wrapper; a remote failure is
observable only as the logged error it returns. -/
theorem deleteCache_never_raises (remoteDelete : Except String Unit) :
    (∃ log, deleteCache remoteDelete = Except.ok log) ∧
    (∃ log, processorDeleteCache remoteDelete = Except.ok log) ∧
    (∀ e, remoteDelete = Except.error e → deleteCache remoteDelete = Except.ok (some e)) := by
  refine ⟨?_, ?_, ?_⟩
  · cases remoteDelete with
    | ok u => exact ⟨none, rfl⟩
    | error e => exact ⟨some e, rfl⟩
  · cases remoteDelete with
    | ok u => exact ⟨none, rfl⟩
    | error e => exact ⟨some e, rfl⟩
  · intro e he
    subst he
    rfl

/-- Witness for C9: deleting a handle the remote service reports as missing
returns normally, carrying only the logged error. -/
theorem deleteCache_never_raises_witness :
    deleteCache (Except.error "404 CachedContent not found") =
      Except.ok (some "404 CachedContent not found") :=
  (deleteCache_never_raises (Except.error "404 CachedContent not found")).2.2
    "404 CachedContent not found" rfl

theorem processMultipleFilesLoop_ok (procFile : String → Except String String)
    (res : String → String) :
    ∀ (paths : List String) (acc : List String),
      (∀ fp ∈ paths, procFile fp = Except.ok (res fp)) →
      processMultipleFilesLoop procFile acc paths =
        Except.ok (acc ++ (paths.map res).filter (fun s => decide (s ≠ ""))) := by
  intro paths
  induction paths with
  | nil =>
      intro acc h
      simp [processMultipleFilesLoop]
  | cons fp rest ih =>
      intro acc h
      have hfp := h fp (List.mem_cons_self fp rest)
      simp only [processMultipleFilesLoop, hfp]
      rw [ih _ (fun x hx => h x (List.mem_cons_of_mem fp hx))]
      by_cases hr : res fp = ""
      · simp [hr, List.filter_cons]
      · simp [hr, List.filter_cons]

/-- C10: process_multiple_files returns the double-newline join of the
non-empty per-file results in the order the paths were given; each path is
processed sequentially through process_file, an empty per-file result (such as
a missing file) contributes nothing and raises nothing, and with zero paths or
all-empty results the return value is the empty string. -/
theorem processMultipleFiles_joins_in_order (procFile : String → Except String String)
    (res : String → String) (filePaths : List String)
    (h : ∀ fp ∈ filePaths, procFile fp = Except.ok (res fp)) :
    processMultipleFiles procFile filePaths =
      Except.ok (String.intercalate "\n\n"
        ((filePaths.map res).filter (fun s => decide (s ≠ "")))) ∧
    (filePaths = [] → processMultipleFiles procFile filePaths = Except.ok "") ∧
    ((∀ fp ∈ filePaths, res fp = "") →
      processMultipleFiles procFile filePaths = Except.ok "") := by
  have hmain : processMultipleFiles procFile filePaths =
      Except.ok (String.intercalate "\n\n"
        ((filePaths.map res).filter (fun s => decide (s ≠ "")))) := by
    unfold processMultipleFiles
    rw [processMultipleFilesLoop_ok procFile res filePaths [] h]
    simp
  refine ⟨hmain, ?_, ?_⟩
  · intro hnil
    subst hnil
    rfl
  · intro hall
    rw [hmain]
    have hfil : (filePaths.map res).filter (fun s => decide (s ≠ "")) = [] := by
      rw [List.filter_eq_nil_iff]
      intro s hs
      obtain ⟨fp, hfp, hsi⟩ := List.mem_map.mp hs
      rw [hall fp hfp] at hsi
      simp [← hsi]
    rw [hfil]
    rfl

/-- Witness for C10: three paths where the middle one yields an empty result;
the join contains the other two results in path order. -/
theorem processMultipleFiles_joins_in_order_witness :
    (∀ fp ∈ (["a.pdf", "missing.pdf", "b.pdf"] : List String),
      (fun p => (Except.ok (if p = "missing.pdf" then "" else p) : Except String String)) fp =
        Except.ok (if fp = "missing.pdf" then "" else fp)) ∧
    processMultipleFiles (fun p => Except.ok (if p = "missing.pdf" then "" else p))
      ["a.pdf", "missing.pdf", "b.pdf"] = Except.ok "a.pdf\n\nb.pdf" := by
  refine ⟨by decide, ?_⟩
  have h := (processMultipleFiles_joins_in_order
    (fun p => Except.ok (if p = "missing.pdf" then "" else p))
    (fun p => if p = "missing.pdf" then "" else p)
    ["a.pdf", "missing.pdf", "b.pdf"] (by decide)).1
  exact h.trans (by decide)

end GeminiParser
